import Mathlib

/-!
Verification development for the `komodo-op` secret synchronizer.

We embed the Go sources shallowly:
* pure string manipulation (`formatKomodoName`, `sanitizeNameForLog`,
  the `strings`/`regexp` helpers they rely on) becomes pure Lean functions
  on `String` / `List Char` (ASCII model: Go operates on bytes, the inputs
  relevant here are ASCII);
* the HTTP clients become functions of an explicit `Transport` value that
  records the observable outcome of the underlying HTTP exchange (status
  code, status text, body-parse results), mirroring exactly how
  `komodoclient.makeRequest` and its callers inspect a response;
* the synchronizer's `Run` loop becomes a pure function of oracles for the
  two clients, returning the error count together with the list of write
  operations (create/update/delete) it issued, in issue order.
-/

namespace KomodoOp

/-- Model of Go `strings.HasPrefix` on character lists (byte-wise check;
ASCII model). -/
def listStartsWith : List Char → List Char → Bool
  | _, [] => true
  | [], _ :: _ => false
  | a :: as, b :: bs => a == b && listStartsWith as bs

/-- Model of Go `strings.Contains s sub` on character lists. -/
def containsCL : List Char → List Char → Bool
  | [], sub => sub.isEmpty
  | c :: cs, sub => listStartsWith (c :: cs) sub || containsCL cs sub

/-- Model of Go `strings.Contains`. -/
def goContains (s sub : String) : Bool :=
  containsCL s.data sub.data

/-- Model of Go `strings.ToUpper` (ASCII model, the only case exercised by
the synchronizer's inputs). -/
def goToUpper (s : String) : String :=
  String.mk (s.data.map Char.toUpper)

/-- Model of Go `strings.ToLower` (ASCII model). -/
def goToLower (s : String) : String :=
  String.mk (s.data.map Char.toLower)

/-- Characters matched by the Go regexp class `\s`:
tab, newline, form feed, carriage return, space. -/
def goSpace (c : Char) : Bool :=
  c == ' ' || c == '\t' || c == '\n' || c == Char.ofNat 12 || c == '\r'

/-- Characters of the class `[a-zA-Z0-9_]`; its complement is what
`nonAlphanumericRegex` matches. -/
def isWordChar (c : Char) : Bool :=
  if ('a' ≤ c ∧ c ≤ 'z') ∨ ('A' ≤ c ∧ c ≤ 'Z') ∨ ('0' ≤ c ∧ c ≤ '9') ∨ c = '_'
  then true else false

/-- Model of `regexp.MustCompile("<class>+").ReplaceAllString`: every
maximal run of characters satisfying `p` is replaced by `rep` once.
The `inRun` flag records whether the previous character was part of a run. -/
def collapseAux (p : Char → Bool) (rep : List Char) : Bool → List Char → List Char
  | _, [] => []
  | inRun, c :: cs =>
    if p c then
      (if inRun then [] else rep) ++ collapseAux p rep true cs
    else
      c :: collapseAux p rep false cs

/-- Replace every maximal run of characters satisfying `p` in `s` by `rep`. -/
def goReplaceRuns (p : Char → Bool) (rep : String) (s : String) : String :=
  String.mk (collapseAux p rep.data false s.data)

/-- Model of Go `strings.Split(s, "__")` on character lists: split around
each leftmost non-overlapping occurrence of the two-underscore separator
(the only separator the synchronizer splits on). -/
def splitOnDoubleUnderscore : List Char → List (List Char)
  | [] => [[]]
  | '_' :: '_' :: cs => [] :: splitOnDoubleUnderscore cs
  | c :: cs =>
    match splitOnDoubleUnderscore cs with
    | [] => [[c]]
    | p :: ps => (c :: p) :: ps

/-- Model of Go `strings.Join(parts, "__")`. -/
def joinDoubleUnderscore : List String → String
  | [] => ""
  | [p] => p
  | p :: q :: ps => p ++ "__" ++ joinDoubleUnderscore (q :: ps)

namespace Synchronizer

/-- `managedByMarker` from `synchronizer.go`: identifier used in a
variable's description to mark variables managed by this tool. -/
def managedByMarker : String := "1Password-Sync:"

/-- `formatKomodoName` from `synchronizer.go`: collapse whitespace runs to
a single hyphen, then collapse runs of characters outside `[a-zA-Z0-9_]`
(which includes those hyphens) to a single underscore, uppercase, and join
item and field parts with a double underscore; an empty field label yields
the item part alone. -/
def formatKomodoName (itemName fieldLabel : String) : String :=
  let safeItemName1 := goReplaceRuns goSpace "-" itemName
  let safeFieldLabel1 := goReplaceRuns goSpace "-" fieldLabel
  let safeItemName2 := goReplaceRuns (fun c => !isWordChar c) "_" safeItemName1
  let safeFieldLabel2 := goReplaceRuns (fun c => !isWordChar c) "_" safeFieldLabel1
  let safeItemName3 := goToUpper safeItemName2
  let safeFieldLabel3 := goToUpper safeFieldLabel2
  if fieldLabel = "" then safeItemName3
  else safeItemName3 ++ "__" ++ safeFieldLabel3

/-- The masking loop of `sanitizeNameForLog`: Go iterates `for i := 2;
i < len(parts); i++`, i.e. parts at index 0 and 1 are untouched and every
later part is replaced by its first two characters plus `***` (or `***`
alone when it has at most two characters). -/
def maskParts : Nat → List String → List String
  | _, [] => []
  | i, p :: ps =>
    (if i < 2 then p
     else if 2 < p.length then String.mk (p.data.take 2) ++ "***" else "***")
      :: maskParts (i + 1) ps

/-- `sanitizeNameForLog` from `synchronizer.go`: split on `"__"`, return
the input unchanged when there are fewer than two parts, otherwise mask the
parts at index ≥ 2 and re-join. -/
def sanitizeNameForLog (name : String) : String :=
  let parts := (splitOnDoubleUnderscore name.data).map String.mk
  if parts.length < 2 then name
  else joinDoubleUnderscore (maskParts 0 parts)

/-- `opclient.Item`: a 1Password item summary (`{id, title}`). -/
structure Item where
  id : String
  title : String
deriving DecidableEq

/-- `opclient.Field`: a field of a 1Password item; the synchronizer only
reads `Label` and `Value` (the `Type`/`Purpose` metadata is unused). -/
structure GoField where
  fid : String
  label : String
  value : String
deriving DecidableEq

/-- `opclient.ItemDetail`: full details of an item; the synchronizer reads
`Title` and `Fields`. -/
structure ItemDetail where
  title : String
  fields : List GoField
deriving DecidableEq

/-- Oracle for the 1Password client as seen by `Synchronizer.Run`: the
results of `GetItems` and of `GetItemDetails` per item id. -/
structure OpOracle where
  getItems : Except String (List Item)
  getItemDetails : String → Except String ItemDetail

/-- Oracle for the Komodo client as seen by `Synchronizer.Run`:
`getVariable` yields an error or the `found` flag; the write calls yield
`none` on success or `some msg` on failure; `listVariables` yields the
snapshot as `(name, description)` pairs in map-iteration order. -/
structure KomodoOracle where
  getVariable : String → Except String Bool
  createVariable : String → String → String → Option String
  updateVariableValue : String → String → Option String
  deleteVariable : String → Option String
  listVariables : Except String (List (String × String))

/-- The config fields `Synchronizer.Run` reads (only the vault UUID). -/
structure Config where
  opVaultUUID : String

/-- A destination write issued by the synchronizer (the call being made,
whether or not it succeeds). -/
inductive Effect where
  | create (name : String)
  | update (name : String)
  | delete (name : String)
deriving DecidableEq

/-- `syncKomodoSecret` from `synchronizer.go`: check existence via
`GetVariable`; on error return it without writing; if found, update; else
create with the marker-bearing description. Result: the returned error and
the write calls issued. -/
def syncKomodoSecret (k : KomodoOracle) (vault name value : String) :
    Option String × List Effect :=
  match k.getVariable name with
  | Except.error e =>
      (some ("failed during existence check for variable \x27" ++ name ++ "\x27: " ++ e), [])
  | Except.ok true => (k.updateVariableValue name value, [Effect.update name])
  | Except.ok false =>
      (k.createVariable name value
        (managedByMarker ++ " Synced from 1P vault \x27" ++ vault ++ "\x27"),
       [Effect.create name])

/-- Accumulator of the phase-2 loop of `Run`: the expected Komodo names
(`expectedKomodoNames`, a set represented by its insertion list), the
`secretsToSync` list and the `skipped1PCount` counter. -/
structure Phase2Out where
  expected : List String
  secrets : List (String × String)
  skipped : Nat
deriving DecidableEq

/-- The inner field loop of phase 2 of `Run`: skip fields with empty label
or value (counting them), otherwise record the formatted name as expected
and append it with the value to the to-sync list. -/
def processFields (title : String) (acc : Phase2Out) : List GoField → Phase2Out
  | [] => acc
  | f :: fs =>
    if f.label = "" ∨ f.value = "" then
      processFields title ⟨acc.expected, acc.secrets, acc.skipped + 1⟩ fs
    else
      processFields title
        ⟨acc.expected ++ [formatKomodoName title f.label],
         acc.secrets ++ [(formatKomodoName title f.label, f.value)],
         acc.skipped⟩ fs

/-- The item loop of phase 2 of `Run` (`gd` is the client's
`GetItemDetails`): an item whose detail fetch fails is logged and skipped
with **no** counter touched; an item with no fields is counted as skipped;
otherwise its fields are processed. -/
def processItems (gd : String → Except String ItemDetail) (acc : Phase2Out) :
    List Item → Phase2Out
  | [] => acc
  | it :: its =>
    match gd it.id with
    | Except.error _ => processItems gd acc its
    | Except.ok d =>
      if d.fields = [] then
        processItems gd ⟨acc.expected, acc.secrets, acc.skipped + 1⟩ its
      else processItems gd (processFields d.title acc d.fields) its

/-- The `expectedKomodoNames` set computed by phase 2 of `Run`. -/
def expectedOf (gd : String → Except String ItemDetail) (items : List Item) :
    List String :=
  (processItems gd ⟨[], [], 0⟩ items).expected

/-- The `secretsToSync` list computed by phase 2 of `Run`. -/
def secretsOf (gd : String → Except String ItemDetail) (items : List Item) :
    List (String × String) :=
  (processItems gd ⟨[], [], 0⟩ items).secrets

/-- Outcome of one of the two write loops of `Run`: its success counter,
its error counter and the write calls it issued, in order. -/
structure PhaseOut where
  okCount : Nat
  errCount : Nat
  effects : List Effect
deriving DecidableEq

/-- The create/update loop (phase 3) of `Run`: each secret is synced via
`syncKomodoSecret`; a failure increments `createUpdateErrorCount`, a
success increments `processedCount`; no failure stops the loop. -/
def createUpdatePhase (k : KomodoOracle) (vault : String) :
    List (String × String) → PhaseOut
  | [] => ⟨0, 0, []⟩
  | (n, v) :: rest =>
    match (syncKomodoSecret k vault n v).1 with
    | some _ =>
      ⟨(createUpdatePhase k vault rest).okCount,
       (createUpdatePhase k vault rest).errCount + 1,
       (syncKomodoSecret k vault n v).2 ++ (createUpdatePhase k vault rest).effects⟩
    | none =>
      ⟨(createUpdatePhase k vault rest).okCount + 1,
       (createUpdatePhase k vault rest).errCount,
       (syncKomodoSecret k vault n v).2 ++ (createUpdatePhase k vault rest).effects⟩

/-- The orphan loop (phase 4) of `Run`: for each listed variable whose
description contains `managedByMarker` and whose name is not in the
expected set, issue `DeleteVariable`, counting success/failure; all other
variables are left untouched. -/
def orphanPhase (k : KomodoOracle) (exp : List String) :
    List (String × String) → PhaseOut
  | [] => ⟨0, 0, []⟩
  | (n, d) :: rest =>
    if goContains d managedByMarker && !(exp.contains n) then
      match k.deleteVariable n with
      | some _ =>
        ⟨(orphanPhase k exp rest).okCount,
         (orphanPhase k exp rest).errCount + 1,
         Effect.delete n :: (orphanPhase k exp rest).effects⟩
      | none =>
        ⟨(orphanPhase k exp rest).okCount + 1,
         (orphanPhase k exp rest).errCount,
         Effect.delete n :: (orphanPhase k exp rest).effects⟩
    else orphanPhase k exp rest

/-- Result of `Run`: its returned error count together with the write
calls issued to the destination. -/
structure RunResult where
  errors : Nat
  effects : List Effect
deriving DecidableEq

/-- `Synchronizer.Run` from `synchronizer.go`: fetch items (a failure
returns 1 with no writes); an empty item list returns 0 with no writes;
otherwise process items (phase 2), run the create/update loop, list the
destination variables (a failure returns the create/update errors plus
one, with no deletes), run the orphan loop, and return the sum of the two
loops' error counters. -/
def run (op : OpOracle) (k : KomodoOracle) (cfg : Config) : RunResult :=
  match op.getItems with
  | Except.error _ => ⟨1, []⟩
  | Except.ok items =>
    if items = [] then ⟨0, []⟩
    else
      match k.listVariables with
      | Except.error _ =>
        ⟨(createUpdatePhase k cfg.opVaultUUID (secretsOf op.getItemDetails items)).errCount + 1,
         (createUpdatePhase k cfg.opVaultUUID (secretsOf op.getItemDetails items)).effects⟩
      | Except.ok vars =>
        ⟨(createUpdatePhase k cfg.opVaultUUID (secretsOf op.getItemDetails items)).errCount +
           (orphanPhase k (expectedOf op.getItemDetails items) vars).errCount,
         (createUpdatePhase k cfg.opVaultUUID (secretsOf op.getItemDetails items)).effects ++
           (orphanPhase k (expectedOf op.getItemDetails items) vars).effects⟩

/-- Declarative count of the create/update failures of phase 3 over a
to-sync list: the number of entries whose `syncKomodoSecret` call errors. -/
def countCUFailures (k : KomodoOracle) (vault : String)
    (secrets : List (String × String)) : Nat :=
  (secrets.filter fun s => ((syncKomodoSecret k vault s.1 s.2).1).isSome).length

/-- Declarative count of the delete failures of phase 4 over a variable
snapshot: the number of marker-bearing, unexpected entries whose
`DeleteVariable` call errors. -/
def countDeleteFailures (k : KomodoOracle) (exp : List String)
    (vars : List (String × String)) : Nat :=
  (vars.filter fun v =>
    (goContains v.2 managedByMarker && !(exp.contains v.1)) &&
      ((k.deleteVariable v.1).isSome)).length

end Synchronizer

namespace KomodoClient

/-- `komodoclient.ErrorResponse`: the `{error, trace}` failure envelope. -/
structure ErrorResponse where
  error : String
  trace : List String
deriving DecidableEq

/-- Observable outcome of one HTTP exchange, as `makeRequest` and its
callers inspect it: the numeric status code, the status line text
(`resp.Status`, e.g. `"404 Not Found"`), whether reading the body failed,
the result of `json.Unmarshal`-ing the body into `ErrorResponse` (`none`
when that unmarshal fails, e.g. for an empty or non-JSON body), and the
error of decoding the body into the success target (`none` = decodes). -/
structure HttpResponse where
  statusCode : Nat
  status : String
  readErr : Option String
  bodyErrParse : Option ErrorResponse
  targetDecodeErr : Option String
deriving DecidableEq

/-- Outcome of `httpClient.Do`: either a transport failure or a response.
(Payload marshalling and `http.NewRequest` cannot fail for this client's
fixed method and JSON-struct payloads, so those early returns are not
modelled.) -/
inductive Transport where
  | fail (msg : String)
  | ok (resp : HttpResponse)
deriving DecidableEq

/-- The triple returned by `makeRequest`: the status code, the body (here
represented by the result of unmarshalling the returned bytes into
`ErrorResponse`, which is all the callers do with them), and the error. -/
structure MRResult where
  statusCode : Nat
  bodyErr : Option ErrorResponse
  err : Option String
deriving DecidableEq

/-- Go `fmt`'s `%v` rendering of a `[]string`, as embedded in the trace
part of `makeRequest`'s error message. -/
def formatTrace (l : List String) : String :=
  "[" ++ joinSpace l ++ "]"
where
  joinSpace : List String → String
    | [] => ""
    | [s] => s
    | s :: t :: ts => s ++ " " ++ joinSpace (t :: ts)

/-- `komodoclient.makeRequest`: a transport failure yields status 0, no
body and a wrapped error; a body-read failure yields the status and a
wrapped error; a non-2xx status yields the body and an error carrying the
status text plus, when the body parses to a non-empty `{error, trace}`
envelope, that message and trace; a 2xx response errors only when the
caller supplied a decode target and decoding fails. -/
def makeRequest (url : String) (t : Transport) (hasTarget : Bool) : MRResult :=
  match t with
  | Transport.fail msg =>
    ⟨0, none, some ("failed to execute Komodo request to " ++ url ++ ": " ++ msg)⟩
  | Transport.ok resp =>
    match resp.readErr with
    | some rmsg =>
      ⟨resp.statusCode, none,
       some ("Komodo API request to " ++ url ++ " returned status " ++ resp.status ++
         ", but failed to read response body: " ++ rmsg)⟩
    | none =>
      if resp.statusCode < 200 ∨ 300 ≤ resp.statusCode then
        match resp.bodyErrParse with
        | some ke =>
          if ke.error = "" then
            ⟨resp.statusCode, some ke,
             some ("Komodo API request to " ++ url ++ " failed with status " ++ resp.status)⟩
          else
            ⟨resp.statusCode, some ke,
             some ("Komodo API request to " ++ url ++ " failed with status " ++ resp.status ++
               ": " ++ ke.error ++ " (Trace: " ++ formatTrace ke.trace ++ ")")⟩
        | none =>
          ⟨resp.statusCode, none,
           some ("Komodo API request to " ++ url ++ " failed with status " ++ resp.status)⟩
      else
        match hasTarget, resp.targetDecodeErr with
        | true, some dmsg =>
          ⟨resp.statusCode, resp.bodyErrParse,
           some ("failed to decode successful Komodo response from " ++ url ++ ": " ++ dmsg)⟩
        | _, _ => ⟨resp.statusCode, resp.bodyErrParse, none⟩

/-- `Client.GetVariable` (found flag and error; the parsed record is not
used by the synchronizer and is omitted): a 404 status is `found=false`
with no error; otherwise a `makeRequest` error whose body parses to an
envelope whose lower-cased message contains `"no variable found"` is also
`found=false` with no error; any other `makeRequest` error is wrapped and
returned; success is `found=true`. -/
def GetVariable (host name : String) (t : Transport) : Bool × Option String :=
  if (makeRequest (host ++ "/read") t true).statusCode = 404 then (false, none)
  else
    match (makeRequest (host ++ "/read") t true).err with
    | some errMsg =>
      match (makeRequest (host ++ "/read") t true).bodyErr with
      | some ke =>
        if goContains (goToLower ke.error) "no variable found" then (false, none)
        else (false, some ("failed to get Komodo variable \x27" ++ name ++ "\x27: " ++ errMsg))
      | none =>
        (false, some ("failed to get Komodo variable \x27" ++ name ++ "\x27: " ++ errMsg))
    | none => (true, none)

/-- `Client.DeleteVariable`: on a `makeRequest` error, if the body parses
to an envelope whose lower-cased message contains `"no variable found"` or
`"not found"`, succeed (idempotent); if the body does not parse, apply the
same check to the error string itself; otherwise wrap and return the
error. Note no status-code check is performed. -/
def DeleteVariable (host name : String) (t : Transport) : Option String :=
  match (makeRequest (host ++ "/write") t false).err with
  | none => none
  | some errMsg =>
    match (makeRequest (host ++ "/write") t false).bodyErr with
    | some ke =>
      if goContains (goToLower ke.error) "no variable found" ||
          goContains (goToLower ke.error) "not found" then none
      else some ("failed to delete Komodo variable \x27" ++ name ++ "\x27: " ++ errMsg)
    | none =>
      if goContains (goToLower errMsg) "no variable found" ||
          goContains (goToLower errMsg) "not found" then none
      else some ("failed to delete Komodo variable \x27" ++ name ++ "\x27: " ++ errMsg)

end KomodoClient

/-! ### Concrete instances used by witnesses and counterexamples -/

/-- A config with vault UUID `"v"`. -/
def cfg0 : Synchronizer.Config := ⟨"v"⟩

/-- A one-item source vault. -/
def itemsW : List Synchronizer.Item := [⟨"i1", "Prod"⟩]

/-- Details of the single item: one field `Key` with value `xyz`. -/
def detailW : Synchronizer.ItemDetail := ⟨"Prod", [⟨"f1", "Key", "xyz"⟩]⟩

/-- Source oracle returning the one-item vault. -/
def opW : Synchronizer.OpOracle := ⟨Except.ok itemsW, fun _ => Except.ok detailW⟩

/-- A marker-bearing description as `syncKomodoSecret` writes it. -/
def descGone : String := "1Password-Sync: Synced from 1P vault \x27v\x27"

/-- Another marker-bearing description. -/
def descStale : String := "1Password-Sync: Synced from 1P vault \x27v\x27 old"

/-- Destination snapshot: two tool-managed variables whose names are not
expected, and one foreign variable without the marker. -/
def varsW : List (String × String) :=
  [("GONE", descGone), ("STALE", descStale), ("KEEP", "user managed")]

/-- Destination oracle: nothing exists yet, every write succeeds, listing
returns `varsW`. -/
def kW : Synchronizer.KomodoOracle :=
  ⟨fun _ => Except.ok false, fun _ _ _ => none, fun _ _ => none, fun _ => none,
   Except.ok varsW⟩

/-- Source oracle whose vault is empty. -/
def opEmpty : Synchronizer.OpOracle :=
  ⟨Except.ok [], fun _ => Except.error "unused"⟩

/-- Source oracle whose `GetItems` call fails. -/
def opFail : Synchronizer.OpOracle :=
  ⟨Except.error "connection refused", fun _ => Except.error "unused"⟩

/-- Two-item source where the first item's detail fetch fails and the
second has one good field. -/
def opC4 : Synchronizer.OpOracle :=
  ⟨Except.ok [⟨"a", "A"⟩, ⟨"b", "B"⟩],
   fun i => if i = "a" then Except.error "boom"
            else Except.ok ⟨"B", [⟨"f", "SECRET", "val"⟩]⟩⟩

/-- Destination oracle with an empty snapshot and all calls succeeding. -/
def kC4 : Synchronizer.KomodoOracle :=
  ⟨fun _ => Except.ok false, fun _ _ _ => none, fun _ _ => none, fun _ => none,
   Except.ok []⟩

/-- Destination oracle whose existence check always fails. -/
def kGetFail : Synchronizer.KomodoOracle :=
  ⟨fun _ => Except.error "boom", fun _ _ _ => none, fun _ _ => none, fun _ => none,
   Except.ok []⟩

/-! ### Helper lemmas -/

namespace Synchronizer

theorem contains_true_iff {l : List String} {a : String} :
    l.contains a = true ↔ a ∈ l := by
  induction l with
  | nil => simp
  | cons b t ih => simp [List.contains_cons] at ih ⊢

theorem contains_false_iff {l : List String} {a : String} :
    l.contains a = false ↔ a ∉ l := by
  constructor
  · intro h hmem
    rw [contains_true_iff.mpr hmem] at h
    cases h
  · intro h
    cases hb : l.contains a with
    | false => rfl
    | true => exact absurd (contains_true_iff.mp hb) h

/-- The write calls of one `syncKomodoSecret` are a single create or a
single update, or nothing; never a delete. -/
theorem syncKomodoSecret_effects (k : KomodoOracle) (vault n v : String) :
    (syncKomodoSecret k vault n v).2 = [] ∨
    (syncKomodoSecret k vault n v).2 = [Effect.update n] ∨
    (syncKomodoSecret k vault n v).2 = [Effect.create n] := by
  unfold syncKomodoSecret
  cases k.getVariable n with
  | error e => simp
  | ok b => cases b <;> simp

/-- Phase 3 issues no delete call. -/
theorem delete_not_mem_cu (k : KomodoOracle) (vault : String)
    (l : List (String × String)) (n : String) :
    Effect.delete n ∉ (createUpdatePhase k vault l).effects := by
  induction l with
  | nil => simp [createUpdatePhase]
  | cons s rest ih =>
    obtain ⟨sn, sv⟩ := s
    have hs := syncKomodoSecret_effects k vault sn sv
    cases h : (syncKomodoSecret k vault sn sv).1 <;>
      simp only [createUpdatePhase, h] <;>
      rcases hs with hs | hs | hs <;>
      simp [hs, ih]

/-- The error counter of phase 3 equals the declarative failure count. -/
theorem cu_errCount_eq (k : KomodoOracle) (vault : String)
    (l : List (String × String)) :
    (createUpdatePhase k vault l).errCount = countCUFailures k vault l := by
  induction l with
  | nil => rfl
  | cons s rest ih =>
    obtain ⟨sn, sv⟩ := s
    cases h : (syncKomodoSecret k vault sn sv).1 with
    | none => simpa [createUpdatePhase, countCUFailures, List.filter_cons, h] using ih
    | some e => simpa [createUpdatePhase, countCUFailures, List.filter_cons, h] using ih

/-- The head condition of the orphan loop, decided from its two parts. -/
theorem orphan_cond_true {exp : List String} {vn vd : String}
    (h1 : goContains vd managedByMarker = true) (h2 : vn ∉ exp) :
    (goContains vd managedByMarker && !(exp.contains vn)) = true := by
  rw [h1, Bool.true_and, contains_false_iff.mpr h2]
  rfl

theorem orphan_cond_false (exp : List String) (vn vd : String)
    (h : goContains vd managedByMarker = false ∨ vn ∈ exp) :
    (goContains vd managedByMarker && !(exp.contains vn)) = false := by
  rcases h with h | h
  · rw [h]; rfl
  · rw [contains_true_iff.mpr h, Bool.not_true, Bool.and_false]

/-- The error counter of phase 4 equals the declarative failure count. -/
theorem orphan_errCount_eq (k : KomodoOracle) (exp : List String)
    (vars : List (String × String)) :
    (orphanPhase k exp vars).errCount = countDeleteFailures k exp vars := by
  induction vars with
  | nil => rfl
  | cons v rest ih =>
    obtain ⟨vn, vd⟩ := v
    simp only [countDeleteFailures] at ih ⊢
    by_cases h1 : goContains vd managedByMarker = true
    · by_cases h2 : vn ∈ exp
      · have hc := orphan_cond_false exp vn vd (Or.inr h2)
        simp only [orphanPhase, List.filter_cons]
        rw [hc]
        simp only [Bool.false_and, Bool.false_eq_true, if_false]
        exact ih
      · have hc := orphan_cond_true h1 h2
        cases h : k.deleteVariable vn with
        | none =>
          simp only [orphanPhase, List.filter_cons]
          rw [hc, h]
          simp only [Bool.true_and, Option.isSome_none, Bool.false_eq_true,
            if_false, eq_self_iff_true, if_true]
          exact ih
        | some e =>
          simp only [orphanPhase, List.filter_cons]
          rw [hc, h]
          simp only [Bool.true_and, Option.isSome_some, eq_self_iff_true,
            if_true, List.length_cons]
          rw [ih]
    · have h1' : goContains vd managedByMarker = false := by
        cases hb : goContains vd managedByMarker with
        | false => rfl
        | true => exact absurd hb h1
      have hc := orphan_cond_false exp vn vd (Or.inl h1')
      simp only [orphanPhase, List.filter_cons]
      rw [hc]
      simp only [Bool.false_and, Bool.false_eq_true, if_false]
      exact ih

/-- Phase 4 issues a delete for a name exactly when the snapshot has an
entry with that name whose description carries the marker and whose name
is outside the expected set. -/
theorem orphan_delete_mem (k : KomodoOracle) (exp : List String)
    (vars : List (String × String)) (n : String) :
    Effect.delete n ∈ (orphanPhase k exp vars).effects ↔
      ∃ d, (n, d) ∈ vars ∧ goContains d managedByMarker = true ∧ n ∉ exp := by
  induction vars with
  | nil => simp [orphanPhase]
  | cons v rest ih =>
    obtain ⟨vn, vd⟩ := v
    have skip : ∀ hc' : ¬ (goContains vd managedByMarker = true ∧ vn ∉ exp),
        (Effect.delete n ∈ (orphanPhase k exp rest).effects ↔
          ∃ d, (n, d) ∈ (vn, vd) :: rest ∧
            goContains d managedByMarker = true ∧ n ∉ exp) := by
      intro hc'
      rw [ih]
      constructor
      · rintro ⟨d, hd, hm, hn⟩
        exact ⟨d, List.mem_cons_of_mem _ hd, hm, hn⟩
      · rintro ⟨d, hd, hm, hn⟩
        rcases List.mem_cons.mp hd with he | he
        · obtain ⟨he1, he2⟩ := Prod.mk.injEq .. ▸ he
          subst he1; subst he2
          exact absurd ⟨hm, hn⟩ hc'
        · exact ⟨d, he, hm, hn⟩
    by_cases h1 : goContains vd managedByMarker = true
    · by_cases h2 : vn ∈ exp
      · have hc := orphan_cond_false exp vn vd (Or.inr h2)
        simp only [orphanPhase]
        rw [hc]
        simp only [Bool.false_eq_true, if_false]
        exact skip (by rintro ⟨_, hn⟩; exact hn h2)
      · have hc := orphan_cond_true h1 h2
        have key : ∀ es, (Effect.delete n ∈ Effect.delete vn :: es ↔
            (n = vn ∨ Effect.delete n ∈ es)) := by
          intro es
          rw [List.mem_cons]
          constructor
          · rintro (he | he)
            · left
              injection he
            · right; exact he
          · rintro (he | he)
            · left; rw [he]
            · right; exact he
        have tail : (n = vn ∨ Effect.delete n ∈ (orphanPhase k exp rest).effects) ↔
            (∃ d, (n, d) ∈ (vn, vd) :: rest ∧
              goContains d managedByMarker = true ∧ n ∉ exp) := by
          constructor
          · rintro (he | he)
            · subst he
              exact ⟨vd, List.mem_cons_self _ _, h1, h2⟩
            · rcases ih.mp he with ⟨d, hd, hdm, hdn⟩
              exact ⟨d, List.mem_cons_of_mem _ hd, hdm, hdn⟩
          · rintro ⟨d, hd, hdm, hdn⟩
            rcases List.mem_cons.mp hd with he | he
            · obtain ⟨he1, _⟩ := Prod.mk.injEq .. ▸ he
              exact Or.inl he1
            · exact Or.inr (ih.mpr ⟨d, he, hdm, hdn⟩)
        cases h : k.deleteVariable vn with
        | none =>
          simp only [orphanPhase]
          rw [hc, h]
          simp only [eq_self_iff_true, if_true]
          rw [key, tail]
        | some e =>
          simp only [orphanPhase]
          rw [hc, h]
          simp only [eq_self_iff_true, if_true]
          rw [key, tail]
    · have h1' : goContains vd managedByMarker = false := by
        cases hb : goContains vd managedByMarker with
        | false => rfl
        | true => exact absurd hb h1
      have hc := orphan_cond_false exp vn vd (Or.inl h1')
      simp only [orphanPhase]
      rw [hc]
      simp only [Bool.false_eq_true, if_false]
      exact skip (by rintro ⟨hm, _⟩; exact h1 hm)

/-- In a list with pairwise distinct keys, a key determines its value. -/
theorem keys_nodup_unique {l : List (String × String)}
    (h : (l.map Prod.fst).Nodup) {a b b' : String}
    (h1 : (a, b) ∈ l) (h2 : (a, b') ∈ l) : b = b' := by
  induction l with
  | nil => simp at h1
  | cons p t ih =>
    obtain ⟨pa, pb⟩ := p
    simp only [List.map_cons, List.nodup_cons] at h
    rcases List.mem_cons.mp h1 with e1 | e1 <;> rcases List.mem_cons.mp h2 with e2 | e2
    · simp at e1 e2; rw [e1.2, e2.2]
    · exfalso
      simp at e1
      exact h.1 (e1.1 ▸ List.mem_map_of_mem Prod.fst e2)
    · exfalso
      simp at e2
      exact h.1 (e2.1 ▸ List.mem_map_of_mem Prod.fst e1)
    · exact ih h.2 e1 e2

/-- Unfolding of `run` for a successful, non-empty fetch with a successful
snapshot listing. -/
theorem run_delete_mem (op : OpOracle) (k : KomodoOracle) (cfg : Config)
    (items : List Item) (vars : List (String × String)) (n : String)
    (h1 : op.getItems = Except.ok items) (h2 : items ≠ [])
    (h3 : k.listVariables = Except.ok vars) :
    Effect.delete n ∈ (run op k cfg).effects ↔
      ∃ d, (n, d) ∈ vars ∧ goContains d managedByMarker = true ∧
        n ∉ expectedOf op.getItemDetails items := by
  unfold run
  rw [h1, h3]
  simp only [if_neg h2, List.mem_append]
  rw [orphan_delete_mem]
  have := delete_not_mem_cu k cfg.opVaultUUID (secretsOf op.getItemDetails items) n
  simp [this]

/-- An item whose detail fetch fails is skipped transparently by phase 2. -/
theorem processItems_skip_failing (gd : String → Except String ItemDetail)
    (l₁ : List Item) (i₀ : Item) (l₂ : List Item) (e : String)
    (h : gd i₀.id = Except.error e) :
    ∀ acc, processItems gd acc (l₁ ++ i₀ :: l₂) = processItems gd acc (l₁ ++ l₂) := by
  induction l₁ with
  | nil => intro acc; simp [processItems, h]
  | cons a t ih =>
    intro acc
    simp only [List.cons_append, processItems]
    cases gd a.id with
    | error _ => exact ih acc
    | ok d =>
      by_cases hf : d.fields = [] <;> simp [hf] <;> apply ih

/-- Unfolding of `run` when the fetch succeeds with a non-empty item list
and the snapshot listing succeeds. -/
theorem run_eq_ok (op : OpOracle) (k : KomodoOracle) (cfg : Config)
    (items : List Item) (vars : List (String × String))
    (h1 : op.getItems = Except.ok items) (h2 : items ≠ [])
    (h3 : k.listVariables = Except.ok vars) :
    run op k cfg =
      ⟨(createUpdatePhase k cfg.opVaultUUID (secretsOf op.getItemDetails items)).errCount +
         (orphanPhase k (expectedOf op.getItemDetails items) vars).errCount,
       (createUpdatePhase k cfg.opVaultUUID (secretsOf op.getItemDetails items)).effects ++
         (orphanPhase k (expectedOf op.getItemDetails items) vars).effects⟩ := by
  unfold run
  rw [h1, h3]
  simp [h2]

/-- Unfolding of `run` when the fetch succeeds with a non-empty item list
and the snapshot listing fails. -/
theorem run_eq_listfail (op : OpOracle) (k : KomodoOracle) (cfg : Config)
    (items : List Item) (e : String)
    (h1 : op.getItems = Except.ok items) (h2 : items ≠ [])
    (h3 : k.listVariables = Except.error e) :
    run op k cfg =
      ⟨(createUpdatePhase k cfg.opVaultUUID (secretsOf op.getItemDetails items)).errCount + 1,
       (createUpdatePhase k cfg.opVaultUUID (secretsOf op.getItemDetails items)).effects⟩ := by
  unfold run
  rw [h1, h3]
  simp [h2]

end Synchronizer

/-! ### Claims -/

namespace Synchronizer

/-- C1: in every run that reaches the orphan phase (fetch succeeded with a
non-empty item list, the snapshot listing succeeded), a `DeleteVariable`
call is issued for a name exactly when the snapshot holds that name with a
description containing the ownership marker and the name is absent from
the phase-2 expected-name set; in particular (snapshot names being map
keys, hence pairwise distinct) a variable whose description lacks the
marker is never deleted, whether or not its name is expected. -/
theorem run_orphan_delete_iff_marker_and_unexpected
    (op : OpOracle) (k : KomodoOracle) (cfg : Config)
    (items : List Item) (vars : List (String × String))
    (h1 : op.getItems = Except.ok items) (h2 : items ≠ [])
    (h3 : k.listVariables = Except.ok vars) :
    (∀ n, Effect.delete n ∈ (run op k cfg).effects ↔
        ∃ d, (n, d) ∈ vars ∧ goContains d managedByMarker = true ∧
          n ∉ expectedOf op.getItemDetails items) ∧
    (∀ n d, (vars.map Prod.fst).Nodup → (n, d) ∈ vars →
        goContains d managedByMarker = false →
        Effect.delete n ∉ (run op k cfg).effects) := by
  refine ⟨fun n => run_delete_mem op k cfg items vars n h1 h2 h3, ?_⟩
  intro n d hnd hmem hmk hdel
  rcases (run_delete_mem op k cfg items vars n h1 h2 h3).mp hdel with ⟨d', hd', hm', _⟩
  rw [keys_nodup_unique hnd hd' hmem, hmk] at hm'
  cases hm'

/-- Witness for C1: in the concrete run with snapshot `varsW`, the
marker-bearing unexpected variable `GONE` is deleted. -/
theorem run_orphan_delete_iff_marker_and_unexpected_witness :
    Effect.delete "GONE" ∈ (run opW kW cfg0).effects :=
  ((run_orphan_delete_iff_marker_and_unexpected opW kW cfg0 itemsW varsW rfl
      (by decide) rfl).1 "GONE").mpr ⟨descGone, by decide, by decide, by decide⟩

/-- C2 counterexample: the destination snapshot of `kW` holds the
tool-managed variable `GONE` (marker present, name never expected), the
source vault is empty, yet the run exits early at the empty-items check
with zero errors and **no** destination call at all — the orphan phase
never runs, contradicting the claim that the variable is deleted even when
the source vault became empty. -/
theorem run_empty_source_skips_orphan_cex :
    kW.listVariables = Except.ok varsW ∧
    ("GONE", descGone) ∈ varsW ∧
    goContains descGone managedByMarker = true ∧
    run opEmpty kW cfg0 = ⟨0, []⟩ := by
  exact ⟨rfl, by decide, by decide, by decide⟩

/-- C2 (amended): if the fetched item list is non-empty and the snapshot
holds a marker-bearing variable whose name is not in the expected set,
the orphan phase issues a delete for it; with an empty source vault the
run instead exits before any destination call. -/
theorem run_deletes_unexpected_managed_variable
    (op : OpOracle) (k : KomodoOracle) (cfg : Config)
    (items : List Item) (vars : List (String × String)) (n d : String)
    (h1 : op.getItems = Except.ok items) (h2 : items ≠ [])
    (h3 : k.listVariables = Except.ok vars)
    (h4 : (n, d) ∈ vars)
    (h5 : goContains d managedByMarker = true)
    (h6 : n ∉ expectedOf op.getItemDetails items) :
    Effect.delete n ∈ (run op k cfg).effects :=
  (run_delete_mem op k cfg items vars n h1 h2 h3).mpr ⟨d, h4, h5, h6⟩

/-- Witness for the amended C2: the stale managed variable `STALE` is
deleted once the source no longer yields its name. -/
theorem run_deletes_unexpected_managed_variable_witness :
    Effect.delete "STALE" ∈ (run opW kW cfg0).effects :=
  run_deletes_unexpected_managed_variable opW kW cfg0 itemsW varsW "STALE"
    descStale rfl (by decide) rfl (by decide) (by decide) (by decide)

/-- C3 (code bug evaluation): `sanitizeNameForLog` starts masking only at
the third `__`-separated segment, so the standard two-segment
`ITEM__FIELD` name is returned fully unmasked, and in a three-segment name
the second segment stays visible — the claim (and the function's own doc
comment) require every segment after the first to be masked, e.g.
`ITEM__SE***`. -/
theorem sanitizeNameForLog_leaves_second_segment_unmasked :
    sanitizeNameForLog "ITEM__SECRETVALUE" = "ITEM__SECRETVALUE" ∧
    sanitizeNameForLog "A__BB__SECRET" = "A__BB__SE***" := by
  exact ⟨by decide, by decide⟩

/-- C4 counterexample: with two items of which the first one's detail
fetch fails and everything else succeeds, the run still syncs the other
item's secret, but returns error count 0 — not ≥ 1 as claimed: the
detail-fetch failure is logged and skipped without touching any error
counter. -/
theorem run_detail_failure_not_counted_cex :
    opC4.getItemDetails "a" = Except.error "boom" ∧
    Effect.create "B__SECRET" ∈ (run opC4 kC4 cfg0).effects ∧
    ¬ 1 ≤ (run opC4 kC4 cfg0).errors := by
  exact ⟨rfl, by decide, by decide⟩

/-- C4 (amended): an item whose detail fetch fails is skipped
transparently: provided some other item remains, the run is literally the
run over the source without that item — all other items are fully
processed and synced and the run completes — and consequently the failure
contributes nothing to the returned error count. -/
theorem run_item_detail_failure_transparent
    (op : OpOracle) (k : KomodoOracle) (cfg : Config)
    (l₁ : List Item) (i₀ : Item) (l₂ : List Item) (e : String)
    (hg : op.getItems = Except.ok (l₁ ++ i₀ :: l₂))
    (hd : op.getItemDetails i₀.id = Except.error e)
    (hne : l₁ ++ l₂ ≠ []) :
    run op k cfg = run ⟨Except.ok (l₁ ++ l₂), op.getItemDetails⟩ k cfg := by
  have hne' : l₁ ++ i₀ :: l₂ ≠ [] := by cases l₁ <;> simp
  have hp := processItems_skip_failing op.getItemDetails l₁ i₀ l₂ e hd ⟨[], [], 0⟩
  unfold run
  rw [hg]
  simp only [if_neg hne', if_neg hne, expectedOf, secretsOf, hp]

/-- Witness for the amended C4: the concrete two-item run equals the run
over just the healthy item. -/
theorem run_item_detail_failure_transparent_witness :
    run opC4 kC4 cfg0 = run ⟨Except.ok [⟨"b", "B"⟩], opC4.getItemDetails⟩ kC4 cfg0 :=
  run_item_detail_failure_transparent opC4 kC4 cfg0 [] ⟨"a", "A"⟩ [⟨"b", "B"⟩]
    "boom" rfl rfl (by decide)

/-- C5 counterexample: the documented README output with hyphens is not
what the code produces — the hyphens introduced for whitespace are
themselves outside `[a-zA-Z0-9_]` and are rewritten to underscores by the
second replacement. -/
theorem formatKomodoName_readme_example_cex :
    ¬ formatKomodoName "My Service API" "API Key" = "MY-SERVICE-API__API-KEY" := by
  decide

/-- C5 (amended): under the implemented algorithm the documented example
evaluates with underscores: `MY_SERVICE_API__API_KEY`. -/
theorem formatKomodoName_documented_example_underscored :
    formatKomodoName "My Service API" "API Key" = "MY_SERVICE_API__API_KEY" := by
  decide

/-- C6: if the phase-1 source listing fails, the run aborts immediately
with error count exactly 1 and issues no destination write at all. -/
theorem run_aborts_on_listItems_failure
    (op : OpOracle) (k : KomodoOracle) (cfg : Config) (e : String)
    (h : op.getItems = Except.error e) :
    run op k cfg = ⟨1, []⟩ := by
  unfold run
  rw [h]

/-- Witness for C6 at a concrete failing source oracle. -/
theorem run_aborts_on_listItems_failure_witness :
    run opFail kW cfg0 = ⟨1, []⟩ :=
  run_aborts_on_listItems_failure opFail kW cfg0 "connection refused" rfl

/-- C9: for every run that passes phase 1: an empty item list returns 0
errors and no writes (no later phase runs, so no orphan-listing failure
can occur); otherwise the returned error count is the number of per-secret
create/update failures, plus the number of per-orphan delete failures when
the snapshot listing succeeds or exactly 1 when it fails — and in the
latter case the run still completed phase 3, its effects being exactly the
create/update calls (the orphan-listing failure aborts only the orphan
phase; `run` is a total function, so no per-item or per-secret failure is
propagated as an exception). -/
theorem run_error_count_formula
    (op : OpOracle) (k : KomodoOracle) (cfg : Config) (items : List Item)
    (h1 : op.getItems = Except.ok items) :
    (items = [] → run op k cfg = ⟨0, []⟩) ∧
    (items ≠ [] →
      ((run op k cfg).errors =
        countCUFailures k cfg.opVaultUUID (secretsOf op.getItemDetails items) +
          (match k.listVariables with
           | Except.error _ => 1
           | Except.ok vars =>
             countDeleteFailures k (expectedOf op.getItemDetails items) vars)) ∧
      (∀ e, k.listVariables = Except.error e →
        (run op k cfg).effects =
          (createUpdatePhase k cfg.opVaultUUID
            (secretsOf op.getItemDetails items)).effects)) := by
  constructor
  · intro he
    subst he
    unfold run
    rw [h1]
    simp
  · intro hne
    cases hl : k.listVariables with
    | error e =>
      constructor
      · rw [run_eq_listfail op k cfg items e h1 hne hl]
        simp [cu_errCount_eq]
      · intro e' he'
        rw [run_eq_listfail op k cfg items e h1 hne hl]
    | ok vars =>
      constructor
      · rw [run_eq_ok op k cfg items vars h1 hne hl]
        simp [cu_errCount_eq, orphan_errCount_eq]
      · intro e' he'
        simp at he'

/-- Witness for C9 at the concrete run: the count formula evaluates. -/
theorem run_error_count_formula_witness :
    (run opW kW cfg0).errors =
      countCUFailures kW cfg0.opVaultUUID (secretsOf opW.getItemDetails itemsW) +
        countDeleteFailures kW (expectedOf opW.getItemDetails itemsW) varsW :=
  ((run_error_count_formula opW kW cfg0 itemsW rfl).2 (by decide)).1

/-- C10: if the existence check of `syncKomodoSecret` errors, the wrapped
error is returned and no write call (neither create nor update) is
issued, leaving the destination untouched for that name. -/
theorem syncKomodoSecret_no_write_on_check_error
    (k : KomodoOracle) (vault name value e : String)
    (h : k.getVariable name = Except.error e) :
    syncKomodoSecret k vault name value =
      (some ("failed during existence check for variable \x27" ++ name ++
        "\x27: " ++ e), []) := by
  unfold syncKomodoSecret
  rw [h]

/-- Witness for C10 at a concrete failing existence check. -/
theorem syncKomodoSecret_no_write_on_check_error_witness :
    syncKomodoSecret kGetFail "v" "N" "x" =
      (some ("failed during existence check for variable \x27" ++ "N" ++
        "\x27: " ++ "boom"), []) :=
  syncKomodoSecret_no_write_on_check_error kGetFail "v" "N" "x" "boom" rfl

end Synchronizer

namespace KomodoClient

/-- C7 counterexample: the store signals absence with a dedicated 404
not-found status but an error payload reading `gone`; `DeleteVariable`
inspects only the message patterns — never the status code — and returns
an error, contradicting the claimed success for the dedicated-status
mechanism. -/
theorem deleteVariable_not_found_status_errors_cex :
    (DeleteVariable "http://komodo" "X"
      (Transport.ok ⟨404, "404 Not Found", none, some ⟨"gone", []⟩, none⟩)).isSome
      = true := by
  decide

/-- C7 (amended): `DeleteVariable` succeeds exactly when the request
succeeded, or the error payload parsed and its lower-cased message
contains `"no variable found"` or `"not found"`, or the payload did not
parse and the formatted error string contains one of those patterns (a
bare 404 is absorbed only through this last path, via the status text
`404 Not Found` inside the error string); the status code itself is never
consulted. -/
theorem deleteVariable_success_characterization (host name : String) (t : Transport) :
    DeleteVariable host name t = none ↔
      ((makeRequest (host ++ "/write") t false).err = none ∨
       (∃ ke, (makeRequest (host ++ "/write") t false).bodyErr = some ke ∧
          (goContains (goToLower ke.error) "no variable found" ||
            goContains (goToLower ke.error) "not found") = true) ∨
       ((makeRequest (host ++ "/write") t false).bodyErr = none ∧
        ∃ m, (makeRequest (host ++ "/write") t false).err = some m ∧
          (goContains (goToLower m) "no variable found" ||
            goContains (goToLower m) "not found") = true)) := by
  unfold DeleteVariable
  cases he : (makeRequest (host ++ "/write") t false).err with
  | none => simp
  | some m =>
    cases hb : (makeRequest (host ++ "/write") t false).bodyErr with
    | some ke =>
      by_cases hp : (goContains (goToLower ke.error) "no variable found" ||
          goContains (goToLower ke.error) "not found") = true
      · simp [hp]
        exact Bool.or_eq_true_iff.mp hp
      · simp [hp]
        rw [Bool.not_eq_true, Bool.or_eq_false_iff] at hp
        exact hp
    | none =>
      by_cases hp : (goContains (goToLower m) "no variable found" ||
          goContains (goToLower m) "not found") = true
      · simp [hp]
        exact Bool.or_eq_true_iff.mp hp
      · simp [hp]
        rw [Bool.not_eq_true, Bool.or_eq_false_iff] at hp
        exact hp

/-- Witness for the amended C7: a successful request yields success. -/
theorem deleteVariable_success_characterization_witness :
    DeleteVariable "http://komodo" "X"
      (Transport.ok ⟨200, "200 OK", none, none, none⟩) = none :=
  (deleteVariable_success_characterization "http://komodo" "X"
    (Transport.ok ⟨200, "200 OK", none, none, none⟩)).mpr (Or.inl rfl)

/-- C8 counterexample: a 500 response with error payload
`variable not found` matches the claimed case-insensitive
`"not found"` pattern, yet `GetVariable` — which checks only
`"no variable found"` — returns an error instead of `found=false`. -/
theorem getVariable_not_found_message_errors_cex :
    ((GetVariable "http://komodo" "X"
      (Transport.ok ⟨500, "500 Internal Server Error", none,
        some ⟨"variable not found", []⟩, none⟩)).2).isSome = true := by
  decide

/-- C8 (amended): `GetVariable` reports `found=false` with no error
exactly on a 404 status, or on a request error whose body parsed to a
payload whose lower-cased message contains `"no variable found"` (the
bare `"not found"` pattern is **not** matched here, unlike in
`DeleteVariable`); and a request with no error and a non-404 status
reports `found=true` with no error. -/
theorem getVariable_notFound_characterization (host name : String) (t : Transport) :
    (GetVariable host name t = (false, none) ↔
      (makeRequest (host ++ "/read") t true).statusCode = 404 ∨
      ((makeRequest (host ++ "/read") t true).err ≠ none ∧
       ∃ ke, (makeRequest (host ++ "/read") t true).bodyErr = some ke ∧
         goContains (goToLower ke.error) "no variable found" = true)) ∧
    ((makeRequest (host ++ "/read") t true).statusCode ≠ 404 →
      (makeRequest (host ++ "/read") t true).err = none →
      GetVariable host name t = (true, none)) := by
  unfold GetVariable
  by_cases h4 : (makeRequest (host ++ "/read") t true).statusCode = 404
  · refine ⟨by simp [h4], fun hne => absurd h4 hne⟩
  · cases he : (makeRequest (host ++ "/read") t true).err with
    | none => exact ⟨by simp [h4], fun _ _ => by simp [h4]⟩
    | some m =>
      cases hb : (makeRequest (host ++ "/read") t true).bodyErr with
      | some ke =>
        by_cases hp : goContains (goToLower ke.error) "no variable found" = true
        · refine ⟨by simp [h4, hp], fun _ hc => by cases hc⟩
        · refine ⟨by simp [h4, hp], fun _ hc => by cases hc⟩
      | none =>
        refine ⟨by simp [h4], fun _ hc => by cases hc⟩

/-- Witness for the amended C8: a clean 200 response yields
`found=true` with no error. -/
theorem getVariable_notFound_characterization_witness :
    GetVariable "http://komodo" "X"
      (Transport.ok ⟨200, "200 OK", none, none, none⟩) = (true, none) :=
  (getVariable_notFound_characterization "http://komodo" "X"
    (Transport.ok ⟨200, "200 OK", none, none, none⟩)).2 (by decide) rfl

end KomodoClient

end KomodoOp

